import Mathlib

/-!
Shallow embedding of the live bus-tracking backend (`src/server.js`).

Times are modelled as `Int` milliseconds (JS `Date.now()` values).
Coordinates are modelled as `Rat` (JS numbers are only stored and echoed,
never computed with, so exact rationals are a faithful carrier).
A JS `null` field of the inbound payload is modelled as `none`.
The Mongo `buses` collection is a list of documents; `findOneAndUpdate`
with `upsert` updates the first matching document or appends a new one.
The JS object `lastBroadcastTime` is an association list with unique keys.
Each handled `location:update` event is modelled with a single timestamp
`now` used both for the document `updatedAt` and the throttle check, and
with a flag telling whether the awaited Mongo upsert succeeds (a failure
is the thrown error that the handler's `try/catch` swallows).
-/

/-- Inbound `location:update` payload `{busId, lat, lng}` (server.js:115);
`lat`/`lng` may be `null`, modelled as `none`. -/
structure Payload where
  busId : String
  lat : Option Rat
  lng : Option Rat
deriving Repr, DecidableEq

/-- One document of the Mongo `Bus` collection (BusSchema, server.js:52-57). -/
structure BusRecord where
  busId : String
  lat : Rat
  lng : Rat
  updatedAt : Int
deriving Repr, DecidableEq

/-- A delivered `location:broadcast` emission: `io.emit` (server.js:136)
delivers the payload to every currently connected client. -/
structure Emit where
  payload : Payload
  receivers : List String
deriving Repr, DecidableEq

/-- The server's mutable state: the Mongo collection, the module-level
`lastBroadcastTime` object (server.js:105), and the connected sockets. -/
structure ServerState where
  store : List BusRecord
  lastBroadcastTime : List (String × Int)
  clients : List String
deriving Repr, DecidableEq

/-- Result of handling one `location:update` event: the new state and the
broadcast emission, if any. -/
structure StepResult where
  state : ServerState
  emitted : Option Emit
deriving Repr, DecidableEq

/-- JS object assignment `m[k] = t`: overwrite the existing key or add it. -/
def objSet : List (String × Int) → String → Int → List (String × Int)
  | [], k, t => [(k, t)]
  | (k0, v0) :: rest, k, t =>
    if k0 = k then (k, t) :: rest else (k0, v0) :: objSet rest k t

/-- `Bus.findOneAndUpdate({busId}, {lat, lng, updatedAt}, {upsert: true})`
(server.js:119-123): overwrite the first document matching `busId`,
or insert a fresh document when none matches. -/
def upsertBus : List BusRecord → String → Rat → Rat → Int → List BusRecord
  | [], id, la, ln, t => [⟨id, la, ln, t⟩]
  | r :: rest, id, la, ln, t =>
    if r.busId = id then ⟨id, la, ln, t⟩ :: rest
    else r :: upsertBus rest id la ln t

/-- The throttle test `lastBroadcastTime[busId] && now - lastBroadcastTime[busId] < 3000`
(server.js:127-130).  A stored value is truthy in JS exactly when it is
non-zero, so a recorded time of `0` fails the first conjunct. -/
def throttled (m : List (String × Int)) (id : String) (now : Int) : Bool :=
  match m.lookup id with
  | none => false
  | some t => t != 0 && now - t < 3000

/-- The throttle gate of server.js:127-134 as one function: decide whether
to broadcast and, when broadcasting, record `now` for `busId`. -/
def shouldBroadcast (m : List (String × Int)) (id : String) (now : Int) :
    Bool × List (String × Int) :=
  if throttled m id now then (false, m)
  else (true, objSet m id now)

/-- The `location:update` handler (server.js:113-140).  Invalid payloads
(`!busId || lat == null || lng == null`) return silently; a failing upsert
throws, is caught, and leaves everything unchanged; otherwise the document
is upserted, the throttle gate is consulted, and on a positive answer the
original payload is emitted to every connected client. -/
def handleUpdate (s : ServerState) (data : Payload) (now : Int)
    (storeOk : Bool) : StepResult :=
  match data.lat, data.lng with
  | some la, some ln =>
    if data.busId = "" then ⟨s, none⟩
    else if storeOk then
      let s1 : ServerState := { s with store := upsertBus s.store data.busId la ln now }
      let g := shouldBroadcast s1.lastBroadcastTime data.busId now
      if g.1 then
        ⟨{ s1 with lastBroadcastTime := g.2 }, some ⟨data, s1.clients⟩⟩
      else ⟨s1, none⟩
    else ⟨s, none⟩
  | _, _ => ⟨s, none⟩

/-- One inbound `location:update` event: its payload, the time at which it
is handled, and whether its Mongo upsert succeeds. -/
structure Ev where
  data : Payload
  now : Int
  storeOk : Bool
deriving Repr, DecidableEq

/-- Handle a sequence of events, collecting every broadcast together with
the time at which it fired. -/
def run : ServerState → List Ev → ServerState × List (Int × Emit)
  | s, [] => (s, [])
  | s, e :: rest =>
    let r := handleUpdate s e.data e.now e.storeOk
    let p := run r.state rest
    (p.1,
      match r.emitted with
      | some b => (e.now, b) :: p.2
      | none => p.2)

/-- A freshly started server: empty collection, empty throttle object,
with the given connected clients. -/
def emptyState (cs : List String) : ServerState := ⟨[], [], cs⟩

/-- `QueryActive(windowStart)`: the documents with `updatedAt >= windowStart`
(the `$gte` filter of server.js:92-94). -/
def queryActive (store : List BusRecord) (windowStart : Int) : List BusRecord :=
  store.filter fun r => windowStart ≤ r.updatedAt

/-- `GET /api/buses` (server.js:87-100): documents updated within the last
30 seconds (`ACTIVE_WINDOW = 30 * 1000`). -/
def getBuses (store : List BusRecord) (now : Int) : List BusRecord :=
  queryActive store (now - 30 * 1000)

/-! ### Helper lemmas about the throttle object and the upsert -/

theorem lookup_objSet_self (m : List (String × Int)) (k : String) (t : Int) :
    (objSet m k t).lookup k = some t := by
  induction m with
  | nil => simp [objSet, List.lookup]
  | cons p rest ih =>
    obtain ⟨k0, v0⟩ := p
    by_cases h : k0 = k
    · simp [objSet, h, List.lookup]
    · have h2 : (k == k0) = false := beq_eq_false_iff_ne.mpr (Ne.symm h)
      simp [objSet, h, List.lookup, h2, ih]

theorem lookup_objSet_ne (m : List (String × Int)) (k b : String) (t : Int)
    (h : b ≠ k) : (objSet m k t).lookup b = m.lookup b := by
  have h2 : (b == k) = false := beq_eq_false_iff_ne.mpr h
  induction m with
  | nil => simp [objSet, List.lookup, h2]
  | cons p rest ih =>
    obtain ⟨k0, v0⟩ := p
    by_cases h0 : k0 = k
    · subst h0
      simp [objSet, List.lookup, h2]
    · simp [objSet, h0, List.lookup, ih]

theorem mem_upsertBus_self (l : List BusRecord) (id : String) (la ln : Rat)
    (t : Int) : (⟨id, la, ln, t⟩ : BusRecord) ∈ upsertBus l id la ln t := by
  induction l with
  | nil => simp [upsertBus]
  | cons r rest ih =>
    by_cases h : r.busId = id
    · simp [upsertBus, h]
    · simp only [upsertBus, if_neg h]
      exact List.mem_cons_of_mem r ih

theorem mem_keys_upsertBus (l : List BusRecord) (id : String) (la ln : Rat)
    (t : Int) (b : String)
    (h : b ∈ (upsertBus l id la ln t).map (fun r => r.busId)) :
    b ∈ l.map (fun r => r.busId) ∨ b = id := by
  induction l with
  | nil => simp [upsertBus] at h; exact Or.inr h
  | cons r rest ih =>
    by_cases h0 : r.busId = id
    · simp [upsertBus, h0] at h
      rcases h with h | h
      · exact Or.inr h
      · exact Or.inl (by simp [h])
    · simp only [upsertBus, if_neg h0, List.map_cons, List.mem_cons] at h
      rcases h with h | h
      · exact Or.inl (by simp [h])
      · rcases ih h with h1 | h1
        · exact Or.inl (by simp [List.mem_cons]; exact Or.inr (by simpa using h1))
        · exact Or.inr h1

theorem keys_upsertBus_mono (l : List BusRecord) (id : String) (la ln : Rat)
    (t : Int) (b : String) (h : b ∈ l.map (fun r => r.busId)) :
    b ∈ (upsertBus l id la ln t).map (fun r => r.busId) := by
  induction l with
  | nil => simp at h
  | cons r rest ih =>
    simp only [List.map_cons, List.mem_cons] at h
    by_cases h0 : r.busId = id
    · simp only [upsertBus, if_pos h0, List.map_cons, List.mem_cons]
      rcases h with h | h
      · exact Or.inl (h.trans h0)
      · exact Or.inr h
    · simp only [upsertBus, if_neg h0, List.map_cons, List.mem_cons]
      rcases h with h | h
      · exact Or.inl h
      · exact Or.inr (ih h)

theorem self_mem_keys_upsertBus (l : List BusRecord) (id : String)
    (la ln : Rat) (t : Int) :
    id ∈ (upsertBus l id la ln t).map (fun r => r.busId) := by
  have := mem_upsertBus_self l id la ln t
  exact List.mem_map.mpr ⟨⟨id, la, ln, t⟩, this, rfl⟩

theorem nodup_keys_upsertBus (l : List BusRecord) (id : String) (la ln : Rat)
    (t : Int) (h : (l.map (fun r => r.busId)).Nodup) :
    ((upsertBus l id la ln t).map (fun r => r.busId)).Nodup := by
  induction l with
  | nil => simp [upsertBus]
  | cons r rest ih =>
    simp only [List.map_cons, List.nodup_cons] at h
    by_cases h0 : r.busId = id
    · simp only [upsertBus, if_pos h0, List.map_cons, List.nodup_cons]
      exact ⟨by rw [← h0]; exact h.1, h.2⟩
    · simp only [upsertBus, if_neg h0, List.map_cons, List.nodup_cons]
      refine ⟨?_, ih h.2⟩
      intro hmem
      rcases mem_keys_upsertBus rest id la ln t r.busId hmem with h1 | h1
      · exact h.1 h1
      · exact h0 h1

/-! ### Structure of one handler invocation -/

theorem handleUpdate_shape (s : ServerState) (data : Payload) (now : Int)
    (ok : Bool) :
    handleUpdate s data now ok = ⟨s, none⟩ ∨
    ∃ la ln, data.lat = some la ∧ data.lng = some ln ∧ data.busId ≠ "" ∧
      ok = true ∧
      (handleUpdate s data now ok =
        ⟨{ s with store := upsertBus s.store data.busId la ln now }, none⟩ ∨
       handleUpdate s data now ok =
        ⟨{ s with store := upsertBus s.store data.busId la ln now,
                  lastBroadcastTime := objSet s.lastBroadcastTime data.busId now },
          some ⟨data, s.clients⟩⟩) := by
  cases hla : data.lat with
  | none => left; simp [handleUpdate, hla]
  | some la =>
    cases hln : data.lng with
    | none => left; simp [handleUpdate, hla, hln]
    | some ln =>
      by_cases hid : data.busId = ""
      · left; simp [handleUpdate, hla, hln, hid]
      · cases ok with
        | false => left; simp [handleUpdate, hla, hln, hid]
        | true =>
          right
          refine ⟨la, ln, rfl, rfl, hid, rfl, ?_⟩
          by_cases hg : throttled s.lastBroadcastTime data.busId now
          · left; simp [handleUpdate, hla, hln, hid, shouldBroadcast, hg]
          · right; simp [handleUpdate, hla, hln, hid, shouldBroadcast, hg]

theorem handleUpdate_store_eq (s : ServerState) (data : Payload) (la ln : Rat)
    (now : Int) (hla : data.lat = some la) (hln : data.lng = some ln)
    (hid : data.busId ≠ "") :
    (handleUpdate s data now true).state.store =
      upsertBus s.store data.busId la ln now := by
  by_cases hg : throttled s.lastBroadcastTime data.busId now <;>
    simp [handleUpdate, hla, hln, hid, shouldBroadcast, hg]

/-! ### Invariants preserved along every event sequence -/

theorem nodup_keys_handleUpdate (s : ServerState) (data : Payload) (now : Int)
    (ok : Bool) (h : (s.store.map (fun r => r.busId)).Nodup) :
    (((handleUpdate s data now ok).state.store).map (fun r => r.busId)).Nodup := by
  rcases handleUpdate_shape s data now ok with heq | ⟨la, ln, _, _, _, _, heq | heq⟩ <;>
    rw [heq]
  · exact h
  · exact nodup_keys_upsertBus s.store data.busId la ln now h
  · exact nodup_keys_upsertBus s.store data.busId la ln now h

theorem keys_handleUpdate_mono (s : ServerState) (data : Payload) (now : Int)
    (ok : Bool) (id : String) (h : id ∈ s.store.map (fun r => r.busId)) :
    id ∈ ((handleUpdate s data now ok).state.store).map (fun r => r.busId) := by
  rcases handleUpdate_shape s data now ok with heq | ⟨la, ln, _, _, _, _, heq | heq⟩ <;>
    rw [heq]
  · exact h
  · exact keys_upsertBus_mono s.store data.busId la ln now id h
  · exact keys_upsertBus_mono s.store data.busId la ln now id h

/-- The invariant behind C10: every throttled entity has a stored record. -/
def throttleCovered (s : ServerState) : Prop :=
  ∀ id : String, (s.lastBroadcastTime.lookup id).isSome = true →
    id ∈ s.store.map (fun r => r.busId)

theorem throttleCovered_handleUpdate (s : ServerState) (data : Payload)
    (now : Int) (ok : Bool) (h : throttleCovered s) :
    throttleCovered (handleUpdate s data now ok).state := by
  rcases handleUpdate_shape s data now ok with heq | ⟨la, ln, _, _, _, _, heq | heq⟩ <;>
    rw [heq]
  · exact h
  · intro id hl
    exact keys_upsertBus_mono s.store data.busId la ln now id (h id hl)
  · intro id hl
    by_cases hb : id = data.busId
    · subst hb
      exact self_mem_keys_upsertBus s.store data.busId la ln now
    · rw [lookup_objSet_ne s.lastBroadcastTime data.busId id now hb] at hl
      exact keys_upsertBus_mono s.store data.busId la ln now id (h id hl)

theorem nodup_keys_run (evs : List Ev) :
    ∀ s : ServerState, (s.store.map (fun r => r.busId)).Nodup →
      (((run s evs).1.store).map (fun r => r.busId)).Nodup := by
  induction evs with
  | nil => intro s h; simpa [run] using h
  | cons e rest ih =>
    intro s h
    simpa [run] using ih _ (nodup_keys_handleUpdate s e.data e.now e.storeOk h)

theorem throttleCovered_run (evs : List Ev) :
    ∀ s : ServerState, throttleCovered s → throttleCovered (run s evs).1 := by
  induction evs with
  | nil => intro s h; simpa [run] using h
  | cons e rest ih =>
    intro s h
    simpa [run] using ih _ (throttleCovered_handleUpdate s e.data e.now e.storeOk h)

/-! ### Claim theorems -/

/-- C1: the minimum-interval property fails on the code at the spec's own
scenario.  Starting from a fresh server, valid updates for `"B1"` handled at
t=0, t=1000 and t=3100 produce broadcasts at t=0 and t=1000 — two broadcasts
only 1000 ms apart (and none at t=3100, where the spec expects one) — because
the recorded last-broadcast time `0` is falsy in JS and is treated as if no
prior broadcast existed. -/
theorem broadcasts_closer_than_min_interval :
    (run (emptyState ["B1", "viewer"])
      [⟨⟨"B1", some 10, some 20⟩, 0, true⟩,
       ⟨⟨"B1", some (101 / 10), some (201 / 10)⟩, 1000, true⟩,
       ⟨⟨"B1", some 11, some 21⟩, 3100, true⟩]).2.map Prod.fst = [0, 1000] ∧
    (1000 : Int) - 0 < 3000 := by
  constructor
  · rfl
  · decide

/-- C2: every valid update whose upsert succeeds is persisted regardless of
the throttle decision: an Active-Entity Query whose window start is at or
before the update's write time returns a record for that bus carrying exactly
the update's coordinates. -/
theorem update_persisted (s : ServerState) (data : Payload) (la ln : Rat)
    (now ws : Int) (hla : data.lat = some la) (hln : data.lng = some ln)
    (hid : data.busId ≠ "") (hws : ws ≤ now) :
    ∃ r, r ∈ queryActive (handleUpdate s data now true).state.store ws ∧
      r.busId = data.busId ∧ r.lat = la ∧ r.lng = ln ∧ r.updatedAt = now := by
  refine ⟨⟨data.busId, la, ln, now⟩, ?_, rfl, rfl, rfl, rfl⟩
  rw [handleUpdate_store_eq s data la ln now hla hln hid]
  simp only [queryActive, List.mem_filter, decide_eq_true_eq]
  exact ⟨mem_upsertBus_self s.store data.busId la ln now, hws⟩

theorem update_persisted_witness :
    ∃ r, r ∈ queryActive
        (handleUpdate (emptyState ["V"]) ⟨"B1", some 10, some 20⟩ 5000 true).state.store
        4000 ∧
      r.busId = "B1" ∧ r.lat = 10 ∧ r.lng = 20 ∧ r.updatedAt = 5000 :=
  update_persisted (emptyState ["V"]) ⟨"B1", some 10, some 20⟩ 10 20 5000 4000
    rfl rfl (by decide) (by decide)

/-- C3: the throttle gate violates its contract.  With a recorded
last-broadcast time of `0` for `"B1"` and `now = 1000`, a prior broadcast is
recorded and `1000 - 0 < 3000`, so the contract requires `false` with no
state mutation; the code's JS truthiness test treats the stored `0` as
absent, returns `true` and overwrites the entry with `1000`. -/
theorem gate_contract_violation :
    List.lookup "B1" [("B1", (0 : Int))] = some 0 ∧
    ¬ ((1000 : Int) - 0 ≥ 3000) ∧
    shouldBroadcast [("B1", 0)] "B1" 1000 = (true, [("B1", 1000)]) := by
  refine ⟨rfl, by decide, rfl⟩

/-- C4: cold-start exemption — when no last-broadcast time is recorded for
the bus, a valid update with a successful upsert always broadcasts
immediately and records the update's time as the bus's last-broadcast
time. -/
theorem cold_start_broadcasts (s : ServerState) (data : Payload) (la ln : Rat)
    (now : Int) (hla : data.lat = some la) (hln : data.lng = some ln)
    (hid : data.busId ≠ "")
    (hnone : s.lastBroadcastTime.lookup data.busId = none) :
    (handleUpdate s data now true).emitted = some ⟨data, s.clients⟩ ∧
    ((handleUpdate s data now true).state.lastBroadcastTime).lookup data.busId =
      some now := by
  have ht : throttled s.lastBroadcastTime data.busId now = false := by
    simp [throttled, hnone]
  simp [handleUpdate, hla, hln, hid, shouldBroadcast, ht,
    lookup_objSet_self]

theorem cold_start_broadcasts_witness :
    (handleUpdate (emptyState ["V"]) ⟨"B1", some 10, some 20⟩ 5 true).emitted =
      some ⟨⟨"B1", some 10, some 20⟩, ["V"]⟩ ∧
    ((handleUpdate (emptyState ["V"]) ⟨"B1", some 10, some 20⟩ 5 true).state.lastBroadcastTime).lookup
      "B1" = some 5 :=
  cold_start_broadcasts (emptyState ["V"]) ⟨"B1", some 10, some 20⟩ 10 20 5
    rfl rfl (by decide) rfl

/-- C5: an invalid payload (empty `busId`, or `null` `lat` or `lng`) is
silently discarded: no store write, no broadcast, no throttle change, and
the handler returns normally (no error reaches the sender). -/
theorem invalid_update_discarded (s : ServerState) (data : Payload)
    (now : Int) (ok : Bool)
    (h : data.busId = "" ∨ data.lat = none ∨ data.lng = none) :
    handleUpdate s data now ok = ⟨s, none⟩ := by
  rcases h with h | h | h
  · cases hla : data.lat <;> cases hln : data.lng <;>
      simp [handleUpdate, hla, hln, h]
  · cases hln : data.lng <;> simp [handleUpdate, h, hln]
  · cases hla : data.lat <;> simp [handleUpdate, hla, h]

theorem invalid_update_discarded_witness :
    handleUpdate (emptyState []) ⟨"B2", none, some 20⟩ 7 true =
      ⟨emptyState [], none⟩ :=
  invalid_update_discarded (emptyState []) ⟨"B2", none, some 20⟩ 7 true
    (Or.inr (Or.inl rfl))

/-- C6: `GET /api/buses` returns all and only the records whose `updatedAt`
lies within the 30-second window ending at the query time. -/
theorem active_buses_exact (store : List BusRecord) (now : Int)
    (r : BusRecord) :
    r ∈ getBuses store now ↔ r ∈ store ∧ now - 30 * 1000 ≤ r.updatedAt := by
  simp [getBuses, queryActive, List.mem_filter]

theorem active_buses_exact_witness :
    (⟨"A", 1, 2, 35000⟩ : BusRecord) ∈
      getBuses [⟨"A", 1, 2, 35000⟩, ⟨"B", 3, 4, 5000⟩] 40000 ∧
    (⟨"B", 3, 4, 5000⟩ : BusRecord) ∉
      getBuses [⟨"A", 1, 2, 35000⟩, ⟨"B", 3, 4, 5000⟩] 40000 := by
  constructor
  · exact (active_buses_exact _ 40000 _).mpr ⟨by decide, by decide⟩
  · intro h
    exact absurd ((active_buses_exact _ 40000 _).mp h).2 (by decide)

/-- C7: a storage failure is contained — the update is dropped, nothing is
broadcast, store, throttle map and clients are all left unchanged, and the
rest of the event sequence is handled exactly as if the failing update had
never arrived. -/
theorem storage_failure_contained (s : ServerState) (data : Payload)
    (now : Int) (rest : List Ev) :
    handleUpdate s data now false = ⟨s, none⟩ ∧
    run s (⟨data, now, false⟩ :: rest) = run s rest := by
  have h1 : handleUpdate s data now false = ⟨s, none⟩ := by
    cases hla : data.lat <;> cases hln : data.lng <;>
      simp [handleUpdate, hla, hln]
  exact ⟨h1, by simp [run, h1]⟩

/-- C8: when a broadcast fires, its payload is exactly the inbound payload of
the triggering update and it is delivered to every currently connected
client — in particular to the original sender, which is among the connected
clients. -/
theorem broadcast_reaches_all (s : ServerState) (data : Payload) (now : Int)
    (ok : Bool) (b : Emit)
    (h : (handleUpdate s data now ok).emitted = some b) :
    b.payload = data ∧ b.receivers = s.clients ∧
    ∀ c, c ∈ s.clients → c ∈ b.receivers := by
  rcases handleUpdate_shape s data now ok with heq | ⟨la, ln, _, _, _, _, heq | heq⟩ <;>
    rw [heq] at h
  · simp at h
  · simp at h
  · simp only [Option.some.injEq] at h
    subst h
    exact ⟨rfl, rfl, fun c hc => hc⟩

theorem broadcast_reaches_all_witness :
    (⟨⟨"B1", some 10, some 20⟩, ["S", "V"]⟩ : Emit).payload =
      ⟨"B1", some 10, some 20⟩ ∧
    "S" ∈ (⟨⟨"B1", some 10, some 20⟩, ["S", "V"]⟩ : Emit).receivers := by
  have h := broadcast_reaches_all (emptyState ["S", "V"])
    ⟨"B1", some 10, some 20⟩ 0 true ⟨⟨"B1", some 10, some 20⟩, ["S", "V"]⟩ rfl
  exact ⟨h.1, h.2.2 "S" (by decide)⟩

/-- C9: per-entity record uniqueness — starting from an empty store, after
any sequence of handled updates at most one record exists per `busId`, and a
further handled update never deletes a record: every `busId` present in the
store stays present. -/
theorem store_unique_per_bus (cs : List String) (evs : List Ev) (id : String)
    (e : Ev) :
    ((run (emptyState cs) evs).1.store.map (fun r => r.busId)).count id ≤ 1 ∧
    (id ∈ (run (emptyState cs) evs).1.store.map (fun r => r.busId) →
      id ∈ ((handleUpdate (run (emptyState cs) evs).1 e.data e.now
        e.storeOk).state.store).map (fun r => r.busId)) := by
  have hn : (((run (emptyState cs) evs).1.store).map (fun r => r.busId)).Nodup :=
    nodup_keys_run evs (emptyState cs) (by simp [emptyState])
  constructor
  · exact List.nodup_iff_count_le_one.mp hn id
  · intro h
    exact keys_handleUpdate_mono (run (emptyState cs) evs).1 e.data e.now
      e.storeOk id h

theorem store_unique_per_bus_witness :
    ((run (emptyState []) [⟨⟨"B1", some 1, some 2⟩, 0, true⟩]).1.store.map
      (fun r => r.busId)).count "B1" ≤ 1 ∧
    "B1" ∈ ((handleUpdate (run (emptyState []) [⟨⟨"B1", some 1, some 2⟩, 0, true⟩]).1
      ⟨"B1", some 3, some 4⟩ 1000 true).state.store).map (fun r => r.busId) := by
  have h := store_unique_per_bus [] [⟨⟨"B1", some 1, some 2⟩, 0, true⟩] "B1"
    ⟨⟨"B1", some 3, some 4⟩, 1000, true⟩
  exact ⟨h.1, h.2 (by decide)⟩

/-- C10: the throttle map never outruns the store — starting from a fresh
server, after any sequence of handled updates every `busId` with a recorded
last-broadcast time also has a record in the store. -/
theorem throttle_entry_has_record (cs : List String) (evs : List Ev)
    (id : String)
    (h : (((run (emptyState cs) evs).1.lastBroadcastTime).lookup id).isSome =
      true) :
    id ∈ (run (emptyState cs) evs).1.store.map (fun r => r.busId) :=
  throttleCovered_run evs (emptyState cs) (by intro b hb; simp [emptyState] at hb)
    id h

theorem throttle_entry_has_record_witness :
    "B1" ∈ (run (emptyState []) [⟨⟨"B1", some 10, some 20⟩, 5, true⟩]).1.store.map
      (fun r => r.busId) :=
  throttle_entry_has_record [] [⟨⟨"B1", some 10, some 20⟩, 5, true⟩] "B1"
    (by decide)
